import Mathlib

/-!
Verification development for the A-CEEI course-allocation core
(fairpyx/algorithms/ACEEI.py).

The Python source is shallowly embedded: agents and items are indexed by
natural numbers in the insertion order of the source dictionaries, float
arithmetic is modelled by rational arithmetic, and the runtime faults the
source can raise inside this module are modelled by explicit error
values: the ZeroDivisionError of line 66 when delta is zero, the
AttributeError of line 78 when the equilibrium loop's price list (a
Python list, line 251) reaches find_different_budgets, which expects a
dict, the UnboundLocalError on utility_combination in
student_budget_per_bundle, and the TypeError raised when the caller
unpacks the None returned by find_budget_perturbation or evaluates the
list expression prices + delta * excess_demand.

The functions are embedded twice where the runtime type of the price
argument matters: once at the level of the price values (the dict-typed
reading of the standalone functions and their doctests; eliding the
dict/list mismatch only lets runs proceed further than the source does),
and once, with the OnList suffix, as the equilibrium loop actually
invokes them, where the list-typed prices fault inside budget
enumeration before anything else can run.
-/

/-- The allocation instance consumed by the core.  Agents and items are
indexed by naturals in the insertion order of the source dictionaries;
valuation s c is the valuation of agent s for item c. -/
structure Instance where
  numAgents : ℕ
  numItems : ℕ
  agentCapacity : ℕ → ℕ
  itemCapacity : ℕ → ℤ
  valuation : ℕ → ℕ → ℚ

/-- The EF-TB mode enumeration (class EFTBStatus in the source). -/
inductive EFTBStatus
  | NO_EF_TB
  | EF_TB
  | CONTESTED_EF_TB
deriving DecidableEq

/-- Runtime faults of the embedded module.  unboundLocal models the Python
UnboundLocalError raised in student_budget_per_bundle when the never
assigned variable utility_combination is read; typeError models both the
TypeError raised when find_ACEEI_with_EFTB unpacks the None returned by
find_budget_perturbation and the TypeError raised by the list expression
prices + delta * excess_demand; zeroDivisionError models the
ZeroDivisionError of line 66 when delta equals zero; attributeError
models the AttributeError of line 78, where find_different_budgets calls
prices.values() on the Python list the equilibrium loop passes it;
outOfFuel is an artifact of bounding the unbounded source while-loop
with explicit fuel. -/
inductive PyErr
  | unboundLocal
  | typeError
  | zeroDivisionError
  | attributeError
  | outOfFuel
deriving DecidableEq

/-- Embedding of excess_demand (ACEEI.py lines 23-30): for every course,
the sum of the allocation column minus the item capacity.  The
initial_budgets and prices parameters are unused, exactly as in the
source. -/
def excess_demand (inst : Instance) (initial_budgets : ℕ → ℚ) (prices : ℕ → ℚ)
    (allocation : ℕ → ℕ → ℤ) : List ℤ :=
  (List.range inst.numItems).map (fun course =>
    ((List.range inst.numAgents).foldl (fun s student => s + allocation student course) 0)
      - inst.itemCapacity course)

/-- Embedding of clipped_excess_demand (ACEEI.py lines 33-36): entries of
excess_demand are floored at zero exactly where the price is zero. -/
def clipped_excess_demand (inst : Instance) (initial_budgets : ℕ → ℚ) (prices : ℕ → ℚ)
    (allocation : ℕ → ℕ → ℤ) : List ℤ :=
  let z := excess_demand inst initial_budgets prices allocation
  (List.range z.length).map (fun i => if prices i = 0 then max 0 (z.getD i 0) else z.getD i 0)

/-- One agent's contribution to combinations_sum_set (ACEEI.py lines
77-79): all sums of combinations of 1..capacity of the price values are
added to the accumulator, skipping sums already present (Python set
semantics, modelled as a duplicate-free list). -/
def addSums (acc : List ℚ) (cap : ℕ) (prices : List ℚ) : List ℚ :=
  (List.range cap).foldl (fun a r =>
    ((prices.sublistsLen (r + 1)).map List.sum).foldl
      (fun a' s => if s ∈ a' then a' else a' ++ [s]) a) acc

/-- The inner candidate-collection loop of find_different_budgets
(ACEEI.py lines 87-92): walk the sorted sums, stop as soon as appending
would exceed max_k, and accept a sum only if it lies strictly above the
running lower bound and at or below the upper bound. -/
def buildRow : List ℚ → ℚ → ℚ → ℚ → List ℚ → List ℚ
  | [], _, _, _, row => row
  | s :: rest, minB, maxB, maxK, row =>
    if ((row.length : ℚ) + 1) > maxK then row
    else if minB < s ∧ s ≤ maxB then buildRow rest s maxB maxK (row ++ [s])
    else buildRow rest minB maxB maxK row

/-- The per-student loop of find_different_budgets (ACEEI.py lines 73-94).
The accumulator acc models combinations_sum_set, which the source creates
once, before the student loop, so sums enumerated for earlier students
remain visible to later students. -/
def fdbAux (b0 : ℕ → ℚ) (epsilon delta : ℚ) (prices : List ℚ) (inst : Instance) :
    List ℕ → List ℚ → List (List ℚ)
  | [], _ => []
  | s :: rest, acc =>
    let acc' := addSums acc (inst.agentCapacity s) prices
    buildRow (List.insertionSort (· ≤ ·) acc') (b0 s - epsilon) (b0 s + epsilon)
        (2 * epsilon / delta + 1) [b0 s - epsilon]
      :: fdbAux b0 epsilon delta prices inst rest acc'

/-- Embedding of find_different_budgets (ACEEI.py lines 39-95): one row of
candidate budgets per agent, in agent order. -/
def find_different_budgets (inst : Instance) (initial_budgets : ℕ → ℚ)
    (epsilon delta : ℚ) (prices : List ℚ) : List (List ℚ) :=
  fdbAux initial_budgets epsilon delta prices inst (List.range inst.numAgents) []

/-- Mutable state of one student's pass in student_budget_per_bundle:
combination_list (which the source only ever extends, never resets,
across the budget loop), utility_combination (none models the variable
being unbound, which it always is, since the only statement naming it on
the left is the augmented assignment on line 135), max_combination, and
utility_max_combination (none models the initial float negative
infinity). -/
structure StState where
  comboList : List (List ℕ)
  uc : Option ℚ
  maxCombo : Option (List ℕ)
  umax : Option ℚ
deriving DecidableEq

/-- Comparison against utility_max_combination; none is float negative
infinity, strictly below every rational. -/
def gtUmax (u : ℚ) : Option ℚ → Bool
  | none => true
  | some v => decide (v < u)

/-- The course combinations of sizes 1..cap over course indices 0..n-1
(ACEEI.py lines 119-120): itertools.combinations of range(n) taken r at a
time, for r = 1..cap, modelled as the length-r sublists of range n. -/
def combosUpTo (cap n : ℕ) : List (List ℕ) :=
  (List.range cap).flatMap (fun r => List.sublistsLen (r + 1) (List.range n))

/-- Processing of one course combination (ACEEI.py lines 122-138).  A
combination whose price sum fits the budget reaches the two statements
that read utility_combination; when that variable is unbound (uc = none,
which is always the case) the source raises UnboundLocalError, modelled
as the none result. -/
def procCombo (prices : List ℚ) (budget : ℚ) (cap : ℕ) (largeNum : ℚ)
    (st : StState) (combo : List ℕ) : Option StState :=
  let sumOfPrices := (combo.map (fun i => prices.getD i 0)).sum
  if sumOfPrices ≤ budget then
    match (if combo.length = cap then
            match st.uc with
            | none => none
            | some u => some { st with uc := some (u + largeNum) }
          else some st : Option StState) with
    | none => none
    | some st1 =>
      match st1.uc with
      | none => none
      | some u =>
        if gtUmax u st1.umax then
          some { st1 with maxCombo := some combo, umax := some u }
        else some st1
  else some st

/-- The fold of procCombo over combination_list for one budget. -/
def procCombos (prices : List ℚ) (budget : ℚ) (cap : ℕ) (largeNum : ℚ) :
    List (List ℕ) → StState → Option StState
  | [], st => some st
  | c :: rest, st =>
    match procCombo prices budget cap largeNum st c with
    | none => none
    | some st' => procCombos prices budget cap largeNum rest st'

/-- One iteration of the budget loop (ACEEI.py lines 117-145): extend
combination_list with the size 1..cap combinations, scan it, and emit the
binary vector of max_combination over the len(prices) course slots. -/
def procBudget (prices : List ℚ) (cap : ℕ) (largeNum : ℚ) (nCourses : ℕ)
    (st : StState) (budget : ℚ) : Option (StState × List ℕ) :=
  let st0 := { st with comboList := st.comboList ++ combosUpTo cap nCourses }
  match procCombos prices budget cap largeNum st0.comboList st0 with
  | none => none
  | some st' =>
    let binary := (List.range prices.length).map (fun i =>
      match st'.maxCombo with
      | none => 0
      | some mc => if i ∈ mc then 1 else 0)
    some (st', binary)

/-- The fold of procBudget over one student's budget row, collecting the
emitted binary vectors. -/
def procBudgets (prices : List ℚ) (cap : ℕ) (largeNum : ℚ) (nCourses : ℕ) :
    List ℚ → StState → List (List ℕ) → Option (List (List ℕ))
  | [], _, rows => some rows
  | b :: rest, st, rows =>
    match procBudget prices cap largeNum nCourses st b with
    | none => none
    | some (st', vec) => procBudgets prices cap largeNum nCourses rest st' (rows ++ [vec])

/-- One student's pass of student_budget_per_bundle (ACEEI.py lines
107-145): large_num is the sum of the student's valuations, the state is
freshly initialized, and the student's budget row is the student's entry
of different_budgets. -/
def procStudent (inst : Instance) (prices : List ℚ) (db : List (List ℚ)) (s : ℕ) :
    Option (List (List ℕ)) :=
  let largeNum := ((List.range inst.numItems).map (inst.valuation s)).sum
  procBudgets prices (inst.agentCapacity s) largeNum inst.numItems (db.getD s [])
    ⟨[], none, none, none⟩ []

/-- The student loop of student_budget_per_bundle, collecting one row list
per student and propagating the first fault. -/
def studentsLoop (inst : Instance) (prices : List ℚ) (db : List (List ℚ)) :
    List ℕ → Option (List (List (List ℕ)))
  | [] => some []
  | s :: rest =>
    match procStudent inst prices db s with
    | none => none
    | some rows =>
      match studentsLoop inst prices db rest with
      | none => none
      | some m => some (rows :: m)

/-- Embedding of student_budget_per_bundle (ACEEI.py lines 99-146).  The
none result models the UnboundLocalError the source raises as soon as any
combination is affordable; the some result is matrix_a. -/
def student_budget_per_bundle (db : List (List ℚ)) (prices : List ℚ) (inst : Instance) :
    Option (List (List (List ℕ))) :=
  studentsLoop inst prices db (List.range inst.numAgents)

/-- The tuple the external LP solver is specified to return: updated
budgets, the clipped excess-demand norm, the allocation, and the excess
demand vector. -/
def LPResult : Type :=
  (ℕ → ℚ) × ℚ × List (List ℕ) × List ℚ

/-- The type of the external optimizer, linear_program.optimize_model.
Modelled from the spec: that module is not part of the sources here; per
the external-interface contract it is a solver invoked with the demand
matrix, instance, prices, EF-TB mode and initial budgets, returning an
LPResult.  All theorems below quantify over it, so they hold for every
implementation of that contract. -/
def Optimizer : Type :=
  List (List (List ℕ)) → Instance → List ℚ → EFTBStatus → (ℕ → ℚ) → LPResult

/-- Embedding of find_budget_perturbation (ACEEI.py lines 149-153): it
computes the budget rows, the demand matrix, invokes the optimizer and
discards its result; the function body has no return statement, so on the
fault-free path its value is Python None, modelled as Except.ok none.
The price argument is taken at the level of its rational values; the
dict/list type mismatch of the actual loop invocation is modelled by
find_budget_perturbation_onList below. -/
def find_budget_perturbation (optimizer : Optimizer) (initial_budgets : ℕ → ℚ)
    (epsilon delta : ℚ) (prices : List ℚ) (inst : Instance) (t : EFTBStatus) :
    Except PyErr (Option LPResult) :=
  let db := find_different_budgets inst initial_budgets epsilon delta prices
  match student_budget_per_bundle db prices inst with
  | none => .error .unboundLocal
  | some a =>
    let _ := optimizer a inst prices t initial_budgets
    .ok none

/-- The while-loop of find_ACEEI_with_EFTB (ACEEI.py lines 252-261),
bounded by fuel.  Unpacking the Option result of
find_budget_perturbation into a 4-tuple raises TypeError when the value
is none.  In the (unreachable) tuple branch, a zero norm returns the
allocation, and otherwise the source evaluates
prices + delta * excess_demand, which for the float step sizes this
module is used with raises TypeError on Python lists. -/
def loopBody (optimizer : Optimizer) (inst : Instance) (b0 : ℕ → ℚ)
    (delta epsilon : ℚ) (t : EFTBStatus) (prices : List ℚ) :
    Except PyErr (List (List ℕ)) :=
  match find_budget_perturbation optimizer b0 epsilon delta prices inst t with
  | .error e => .error e
  | .ok none => .error .typeError
  | .ok (some (_, norma, allocation, _)) =>
    if norma = 0 then .ok allocation
    else .error .typeError

/-- The fuel-bounded iteration of the loop body. -/
def aceeiLoop (optimizer : Optimizer) (inst : Instance) (b0 : ℕ → ℚ)
    (delta epsilon : ℚ) (t : EFTBStatus) : List ℚ → ℕ → Except PyErr (List (List ℕ))
  | _, 0 => .error .outOfFuel
  | prices, _ + 1 => loopBody optimizer inst b0 delta epsilon t prices

/-- Embedding of find_ACEEI_with_EFTB (ACEEI.py lines 156-261): prices
start as the all-zero vector of length numItems, then the loop runs. -/
def find_ACEEI_with_EFTB (optimizer : Optimizer) (inst : Instance)
    (initial_budgets : ℕ → ℚ) (delta epsilon : ℚ) (t : EFTBStatus) (fuel : ℕ) :
    Except PyErr (List (List ℕ)) :=
  aceeiLoop optimizer inst initial_budgets delta epsilon t
    (List.replicate inst.numItems 0) fuel

/-- The per-student loop of find_different_budgets as the equilibrium
loop actually invokes it, where prices is the Python list built on line
251 rather than the dict the function expects: line 78 evaluates
prices.values(), which a list does not have, so the first agent with
positive capacity raises AttributeError.  An agent with capacity 0 never
reaches line 78 (range(1, 1) is empty) and contributes the row
[initial_budget - epsilon], the shared sum set being necessarily still
empty at that point. -/
def fdbOnListAux (b0 : ℕ → ℚ) (epsilon : ℚ) (inst : Instance) :
    List ℕ → Except PyErr (List (List ℚ))
  | [] => .ok []
  | s :: rest =>
    if 1 ≤ inst.agentCapacity s then .error .attributeError
    else
      match fdbOnListAux b0 epsilon inst rest with
      | .error e => .error e
      | .ok rows => .ok ([b0 s - epsilon] :: rows)

/-- Embedding of find_different_budgets under the actual runtime type of
the loop's price argument: line 66 evaluates max_k = 2 * epsilon / delta
before anything else, raising ZeroDivisionError when delta is zero;
otherwise the student loop runs and faults at line 78 as soon as an
agent has positive capacity. -/
def find_different_budgets_onList (initial_budgets : ℕ → ℚ) (epsilon delta : ℚ)
    (inst : Instance) : Except PyErr (List (List ℚ)) :=
  if delta = 0 then .error .zeroDivisionError
  else fdbOnListAux initial_budgets epsilon inst (List.range inst.numAgents)

/-- Embedding of find_budget_perturbation as the equilibrium loop
invokes it (line 255), with the list-typed price vector:
find_different_budgets faults on every instance with a positive-capacity
agent (and for delta = 0).  In the remaining degenerate case the lookup
of different_budgets at line 117 is modelled index-wise, consistent with
this embedding's identification of agent identifiers with their indices,
and the function falls off the end, returning Python None. -/
def find_budget_perturbation_onList (optimizer : Optimizer) (initial_budgets : ℕ → ℚ)
    (epsilon delta : ℚ) (prices : List ℚ) (inst : Instance) (t : EFTBStatus) :
    Except PyErr (Option LPResult) :=
  match find_different_budgets_onList initial_budgets epsilon delta inst with
  | .error e => .error e
  | .ok db =>
    match student_budget_per_bundle db prices inst with
    | none => .error .unboundLocal
    | some a =>
      let _ := optimizer a inst prices t initial_budgets
      .ok none

/-- The while-loop of find_ACEEI_with_EFTB under the actual runtime type
of its price vector: each iteration invokes
find_budget_perturbation_onList, with the same unpacking and
price-update faults as aceeiLoop. -/
def aceeiLoopOnList (optimizer : Optimizer) (inst : Instance) (b0 : ℕ → ℚ)
    (delta epsilon : ℚ) (t : EFTBStatus) : List ℚ → ℕ → Except PyErr (List (List ℕ))
  | _, 0 => .error .outOfFuel
  | prices, _ + 1 =>
    match find_budget_perturbation_onList optimizer b0 epsilon delta prices inst t with
    | .error e => .error e
    | .ok none => .error .typeError
    | .ok (some (_, norma, allocation, _)) =>
      if norma = 0 then .ok allocation
      else .error .typeError

/-- Embedding of find_ACEEI_with_EFTB under the actual runtime type of
its price vector: the strict counterpart of find_ACEEI_with_EFTB above,
faithful to the first fault of a real run, used to settle how the
function behaves on invalid perturbation parameters. -/
def find_ACEEI_with_EFTB_onList (optimizer : Optimizer) (inst : Instance)
    (initial_budgets : ℕ → ℚ) (delta epsilon : ℚ) (t : EFTBStatus) (fuel : ℕ) :
    Except PyErr (List (List ℕ)) :=
  aceeiLoopOnList optimizer inst initial_budgets delta epsilon t
    (List.replicate inst.numItems 0) fuel

/-- The instance of the first docstring example of find_ACEEI_with_EFTB:
agents avi, beni with capacity 2; items x, y, z with capacities 1, 1, 2;
valuations avi = (1, 2, 4) and beni = (2, 3, 1). -/
def instDoc : Instance :=
  ⟨2, 3, fun _ => 2, fun c => if c = 2 then 2 else 1,
    fun s c =>
      if s = 0 then (if c = 0 then 1 else if c = 1 then 2 else 4)
      else (if c = 0 then 2 else if c = 1 then 3 else 1)⟩

/-- The docstring initial budgets: avi gets 2, beni gets 3. -/
def budgetsDoc : ℕ → ℚ := fun s => if s = 0 then 2 else 3

/-- A one-agent, one-item instance with capacity 1 and valuation 7. -/
def instOne : Instance := ⟨1, 1, fun _ => 1, fun _ => 1, fun _ _ => 7⟩

/-- A one-agent, one-item instance with capacity 1 and valuation 1. -/
def instTiny : Instance := ⟨1, 1, fun _ => 1, fun _ => 1, fun _ _ => 1⟩

/-- A two-agent instance where agent 0 has capacity 2 and agent 1 has
capacity 1, over two items. -/
def instLeak : Instance :=
  ⟨2, 2, fun s => if s = 0 then 2 else 1, fun _ => 1, fun _ _ => 1⟩

/-- A concrete optimizer implementation used to instantiate theorems that
quantify over the external LP solver. -/
def trivialOptimizer : Optimizer := fun _ _ _ _ _ => (fun _ => 0, 0, [], [])

/-! ### Helper lemmas about the budget rows -/

theorem buildRow_invariant (lo maxB maxK : ℚ) :
    ∀ (sums : List ℚ) (minB : ℚ) (row : List ℚ),
      row ≠ [] → List.Chain' (· < ·) row →
      (∀ x ∈ row, lo ≤ x ∧ x ≤ maxB) → (∀ x ∈ row, x ≤ minB) → lo ≤ minB →
      buildRow sums minB maxB maxK row ≠ [] ∧
        (buildRow sums minB maxB maxK row).head? = row.head? ∧
        List.Chain' (· < ·) (buildRow sums minB maxB maxK row) ∧
        ∀ x ∈ buildRow sums minB maxB maxK row, lo ≤ x ∧ x ≤ maxB
  | [], minB, row, h1, h2, h3, _, _ => ⟨h1, rfl, h2, h3⟩
  | s :: rest, minB, row, h1, h2, h3, h4, h5 => by
    rw [buildRow]
    split_ifs with hk hin
    · exact ⟨h1, rfl, h2, h3⟩
    · have hlast : ∀ x ∈ row.getLast?, x ≤ minB := by
        intro x hx
        obtain ⟨hne, hxe⟩ := List.mem_getLast?_eq_getLast hx
        exact h4 x (hxe ▸ List.getLast_mem hne)
      have hchain : List.Chain' (· < ·) (row ++ [s]) := by
        rw [List.chain'_append]
        refine ⟨h2, List.chain'_singleton s, ?_⟩
        intro x hx y hy
        simp only [List.head?_cons, Option.mem_some_iff] at hy
        exact hy ▸ lt_of_le_of_lt (hlast x hx) hin.1
      have hbounds : ∀ x ∈ row ++ [s], lo ≤ x ∧ x ≤ maxB := by
        intro x hx
        rcases List.mem_append.mp hx with hx | hx
        · exact h3 x hx
        · have : x = s := by simpa using hx
          exact this ▸ ⟨le_of_lt (lt_of_le_of_lt h5 hin.1), hin.2⟩
      have hle : ∀ x ∈ row ++ [s], x ≤ s := by
        intro x hx
        rcases List.mem_append.mp hx with hx | hx
        · exact le_of_lt (lt_of_le_of_lt (h4 x hx) hin.1)
        · have : x = s := by simpa using hx
          exact this ▸ le_refl s
      have ih := buildRow_invariant lo maxB maxK rest s (row ++ [s])
        (by simp) hchain hbounds hle (le_of_lt (lt_of_le_of_lt h5 hin.1))
      refine ⟨ih.1, ?_, ih.2.2⟩
      rw [ih.2.1, List.head?_append]
      cases row with
      | nil => exact absurd rfl h1
      | cons a l => rfl
    · exact buildRow_invariant lo maxB maxK rest minB row h1 h2 h3 h4 h5

theorem buildRow_length_le (maxB maxK : ℚ) :
    ∀ (sums : List ℚ) (minB : ℚ) (row : List ℚ),
      ((row.length : ℚ)) ≤ maxK →
      ((buildRow sums minB maxB maxK row).length : ℚ) ≤ maxK
  | [], _, _, h => h
  | s :: rest, minB, row, h => by
    rw [buildRow]
    split_ifs with hk hin
    · exact h
    · refine buildRow_length_le maxB maxK rest s (row ++ [s]) ?_
      push_neg at hk
      simpa using hk
    · exact buildRow_length_le maxB maxK rest minB row h

theorem fdbAux_getElem (b0 : ℕ → ℚ) (epsilon delta : ℚ) (prices : List ℚ) (inst : Instance) :
    ∀ (students : List ℕ) (acc : List ℚ) (i : ℕ) (hi : i < students.length),
      ∃ sums,
        (fdbAux b0 epsilon delta prices inst students acc).get? i =
          some (buildRow sums (b0 (students.get ⟨i, hi⟩) - epsilon)
            (b0 (students.get ⟨i, hi⟩) + epsilon) (2 * epsilon / delta + 1)
            [b0 (students.get ⟨i, hi⟩) - epsilon])
  | [], _, i, hi => absurd hi (by simp)
  | s :: rest, acc, 0, _ =>
    ⟨List.insertionSort (· ≤ ·) (addSums acc (inst.agentCapacity s) prices), rfl⟩
  | s :: rest, acc, i + 1, hi =>
    fdbAux_getElem b0 epsilon delta prices inst rest
      (addSums acc (inst.agentCapacity s) prices) i (by simpa using hi)

theorem find_different_budgets_row (inst : Instance) (b0 : ℕ → ℚ) (epsilon delta : ℚ)
    (prices : List ℚ) (s : ℕ) (hs : s < inst.numAgents) :
    ∃ sums,
      (find_different_budgets inst b0 epsilon delta prices).getD s [] =
        buildRow sums (b0 s - epsilon) (b0 s + epsilon) (2 * epsilon / delta + 1)
          [b0 s - epsilon] := by
  obtain ⟨sums, h⟩ := fdbAux_getElem b0 epsilon delta prices inst
    (List.range inst.numAgents) [] s (by simpa using hs)
  refine ⟨sums, ?_⟩
  have hgd : (find_different_budgets inst b0 epsilon delta prices).getD s [] =
      ((find_different_budgets inst b0 epsilon delta prices).get? s).getD [] := rfl
  rw [hgd]
  unfold find_different_budgets
  rw [h]
  simp [List.get_range]

/-! ### Claims C3, C4, C5: properties of find_different_budgets -/

/-- C3: for every agent, the candidate-budget list produced by
find_different_budgets is strictly increasing, its first element is
exactly initial_budget - epsilon for that agent, and every element lies
in the window from initial_budget - epsilon to initial_budget + epsilon
(epsilon nonnegative, as the parameter contract requires). -/
theorem claim_C3 (inst : Instance) (b0 : ℕ → ℚ) (epsilon delta : ℚ) (prices : List ℚ)
    (s : ℕ) (heps : 0 ≤ epsilon) (hs : s < inst.numAgents) :
    ((find_different_budgets inst b0 epsilon delta prices).getD s []).head? =
        some (b0 s - epsilon) ∧
      List.Chain' (· < ·) ((find_different_budgets inst b0 epsilon delta prices).getD s []) ∧
      ∀ x ∈ (find_different_budgets inst b0 epsilon delta prices).getD s [],
        b0 s - epsilon ≤ x ∧ x ≤ b0 s + epsilon := by
  obtain ⟨sums, hrow⟩ := find_different_budgets_row inst b0 epsilon delta prices s hs
  rw [hrow]
  have h := buildRow_invariant (b0 s - epsilon) (b0 s + epsilon) (2 * epsilon / delta + 1)
    sums (b0 s - epsilon) [b0 s - epsilon] (by simp) (List.chain'_singleton _)
    (by
      intro x hx
      have hx' : x = b0 s - epsilon := by simpa using hx
      subst hx'
      exact ⟨le_rfl, by linarith⟩)
    (by
      intro x hx
      have hx' : x = b0 s - epsilon := by simpa using hx
      simp [hx'])
    le_rfl
  exact ⟨by rw [h.2.1]; rfl, h.2.2.1, h.2.2.2⟩

/-- Witness for C3 at a concrete input: one agent with capacity 1,
initial budget 5, epsilon 1, delta 1, prices [3]. -/
theorem claim_C3_witness :
    (0 : ℚ) ≤ 1 ∧ 0 < instTiny.numAgents ∧
      (((find_different_budgets instTiny (fun _ => 5) 1 1 [3]).getD 0 []).head? =
          some (5 - 1) ∧
        List.Chain' (· < ·) ((find_different_budgets instTiny (fun _ => 5) 1 1 [3]).getD 0 []) ∧
        ∀ x ∈ (find_different_budgets instTiny (fun _ => 5) 1 1 [3]).getD 0 [],
          5 - 1 ≤ x ∧ x ≤ 5 + 1) :=
  ⟨by norm_num, by decide,
    claim_C3 instTiny (fun _ => 5) 1 1 [3] 0 (by norm_num) (by decide)⟩

/-- C4: for every agent, the candidate-budget list returned by
find_different_budgets has at most 2 * epsilon / delta + 1 entries, for
all positive delta and nonnegative epsilon. -/
theorem claim_C4 (inst : Instance) (b0 : ℕ → ℚ) (epsilon delta : ℚ) (prices : List ℚ)
    (s : ℕ) (hdelta : 0 < delta) (heps : 0 ≤ epsilon) (hs : s < inst.numAgents) :
    ((((find_different_budgets inst b0 epsilon delta prices).getD s []).length : ℚ)) ≤
      2 * epsilon / delta + 1 := by
  obtain ⟨sums, hrow⟩ := find_different_budgets_row inst b0 epsilon delta prices s hs
  rw [hrow]
  apply buildRow_length_le
  have hnn : 0 ≤ 2 * epsilon / delta := div_nonneg (by linarith) hdelta.le
  simp only [List.length_singleton, Nat.cast_one]
  linarith

/-- Witness for C4 at a concrete input: one agent with capacity 1,
initial budget 5, epsilon 1, delta 1, prices [3]; the list [4] indeed has
at most 2 * 1 / 1 + 1 = 3 entries. -/
theorem claim_C4_witness :
    (0 : ℚ) < 1 ∧ (0 : ℚ) ≤ 1 ∧ 0 < instTiny.numAgents ∧
      ((((find_different_budgets instTiny (fun _ => 5) 1 1 [3]).getD 0 []).length : ℚ)) ≤
        2 * 1 / 1 + 1 :=
  ⟨by norm_num, by norm_num, by decide,
    claim_C4 instTiny (fun _ => 5) 1 1 [3] 0 (by norm_num) (by norm_num) (by decide)⟩

/-- C5 is false on the code: combinations_sum_set is created once, before
the per-student loop, and only ever grows, so a later agent's candidate
budgets can be drawn from price-subset sums of sizes only reachable under
an earlier agent's larger capacity.  Concretely, in instLeak agent 1 has
capacity 1 over prices [1, 1], so its own enumeration yields only the sum
1, yet its returned candidate list [0, 1, 2] contains 2, the sum of two
prices contributed by agent 0's capacity-2 enumeration. -/
theorem claim_C5_bug :
    (find_different_budgets instLeak (fun _ => 2) 2 1 [1, 1]).getD 1 [] = [0, 1, 2] ∧
      (2 : ℚ) ∈ (find_different_budgets instLeak (fun _ => 2) 2 1 [1, 1]).getD 1 [] ∧
      (2 : ℚ) ∉ addSums [] (instLeak.agentCapacity 1) [1, 1] ∧
      (2 : ℚ) ∈ addSums [] (instLeak.agentCapacity 0) [1, 1] := by
  have hr1 : List.range 1 = [0] := rfl
  have hr2 : List.range 2 = [0, 1] := rfl
  have hs1 : List.sublistsLen 1 [(1 : ℚ), 1] = [[1], [1]] := rfl
  have hs2 : List.sublistsLen 2 [(1 : ℚ), 1] = [[1, 1]] := rfl
  norm_num [find_different_budgets, fdbAux, addSums, buildRow, instLeak,
    hr1, hr2, hs1, hs2, List.insertionSort, List.orderedInsert]

/-! ### Claims C6, C7: the excess-demand calculator -/

theorem foldl_add_eq_sum (f : ℕ → ℤ) :
    ∀ (n : ℕ) (c : ℤ),
      (List.range n).foldl (fun acc s => acc + f s) c = c + ∑ s ∈ Finset.range n, f s
  | 0, c => by simp
  | n + 1, c => by
    rw [List.range_succ, List.foldl_append, foldl_add_eq_sum f n c,
      Finset.sum_range_succ]
    simp [add_assoc]

theorem sum_binary_eq_card (f : ℕ → ℤ) (n : ℕ) (hbin : ∀ s, f s = 0 ∨ f s = 1) :
    ∑ s ∈ Finset.range n, f s = (((Finset.range n).filter (fun s => f s = 1)).card : ℤ) := by
  rw [← Finset.sum_filter_add_sum_filter_not (Finset.range n) (fun s => f s = 1)]
  have h1 : ∑ s ∈ (Finset.range n).filter (fun s => f s = 1), f s =
      (((Finset.range n).filter (fun s => f s = 1)).card : ℤ) := by
    rw [Finset.sum_congr rfl (fun s hs => (Finset.mem_filter.mp hs).2)]
    simp
  have h2 : ∑ s ∈ (Finset.range n).filter (fun s => ¬f s = 1), f s = 0 := by
    refine Finset.sum_eq_zero ?_
    intro s hs
    rcases hbin s with h | h
    · exact h
    · exact absurd h (Finset.mem_filter.mp hs).2
  rw [h1, h2, add_zero]

/-- C6: for every instance and every binary allocation matrix,
excess_demand returns a vector of length numItems whose entry i is the
number of agents assigned item i minus item i's capacity. -/
theorem claim_C6 (inst : Instance) (ib prices : ℕ → ℚ) (alloc : ℕ → ℕ → ℤ)
    (hbin : ∀ s c, alloc s c = 0 ∨ alloc s c = 1) :
    (excess_demand inst ib prices alloc).length = inst.numItems ∧
      ∀ i, i < inst.numItems →
        (excess_demand inst ib prices alloc).get? i =
          some ((((Finset.range inst.numAgents).filter (fun s => alloc s i = 1)).card : ℤ)
            - inst.itemCapacity i) := by
  constructor
  · simp [excess_demand]
  · intro i hi
    unfold excess_demand
    rw [List.get?_map, List.get?_range hi]
    simp only [Option.map_some']
    rw [foldl_add_eq_sum (fun s => alloc s i) inst.numAgents 0,
      sum_binary_eq_card (fun s => alloc s i) inst.numAgents (fun s => hbin s i)]
    simp

/-- Witness for C6: the two-agent instLeak with both agents assigned both
items; item 0 has capacity 1, so its excess is 2 - 1 = 1. -/
theorem claim_C6_witness :
    (∀ s c : ℕ, (fun _ _ => (1 : ℤ)) s c = 0 ∨ (fun _ _ => (1 : ℤ)) s c = 1) ∧
      ((excess_demand instLeak (fun _ => 0) (fun _ => 0) (fun _ _ => 1)).length =
          instLeak.numItems ∧
        ∀ i, i < instLeak.numItems →
          (excess_demand instLeak (fun _ => 0) (fun _ => 0) (fun _ _ => 1)).get? i =
            some ((((Finset.range instLeak.numAgents).filter
              (fun s => (fun _ _ => (1 : ℤ)) s i = 1)).card : ℤ) - instLeak.itemCapacity i)) :=
  ⟨fun _ _ => Or.inr rfl,
    claim_C6 instLeak (fun _ => 0) (fun _ => 0) (fun _ _ => 1) (fun _ _ => Or.inr rfl)⟩

/-- C7: clipped_excess_demand has the same length as excess_demand, its
entry i equals max 0 excess[i] whenever price[i] = 0, and equals the
unclipped excess[i] whenever price[i] is nonzero. -/
theorem claim_C7 (inst : Instance) (ib : ℕ → ℚ) (prices : ℕ → ℚ) (alloc : ℕ → ℕ → ℤ)
    (i : ℕ) (hi : i < (excess_demand inst ib prices alloc).length) :
    (clipped_excess_demand inst ib prices alloc).length =
        (excess_demand inst ib prices alloc).length ∧
      (prices i = 0 →
        (clipped_excess_demand inst ib prices alloc).get? i =
          some (max 0 ((excess_demand inst ib prices alloc).getD i 0))) ∧
      (prices i ≠ 0 →
        (clipped_excess_demand inst ib prices alloc).get? i =
          some ((excess_demand inst ib prices alloc).getD i 0)) := by
  refine ⟨by simp [clipped_excess_demand], ?_, ?_⟩
  · intro hp
    unfold clipped_excess_demand
    rw [List.get?_map, List.get?_range hi]
    simp [hp]
  · intro hp
    unfold clipped_excess_demand
    rw [List.get?_map, List.get?_range hi]
    simp [hp]

/-- Witness for C7: on instLeak with everyone assigned everything, item 0
has excess 1; with the all-zero price vector the clipped entry is
max 0 1. -/
theorem claim_C7_witness :
    0 < (excess_demand instLeak (fun _ => 0) (fun _ => 0) (fun _ _ => 1)).length ∧
      ((clipped_excess_demand instLeak (fun _ => 0) (fun _ => 0) (fun _ _ => 1)).length =
          (excess_demand instLeak (fun _ => 0) (fun _ => 0) (fun _ _ => 1)).length ∧
        ((fun _ : ℕ => (0 : ℚ)) 0 = 0 →
          (clipped_excess_demand instLeak (fun _ => 0) (fun _ => 0) (fun _ _ => 1)).get? 0 =
            some (max 0
              ((excess_demand instLeak (fun _ => 0) (fun _ => 0) (fun _ _ => 1)).getD 0 0))) ∧
        ((fun _ : ℕ => (0 : ℚ)) 0 ≠ 0 →
          (clipped_excess_demand instLeak (fun _ => 0) (fun _ => 0) (fun _ _ => 1)).get? 0 =
            some ((excess_demand instLeak (fun _ => 0) (fun _ => 0) (fun _ _ => 1)).getD 0 0))) :=
  ⟨by decide,
    claim_C7 instLeak (fun _ => 0) (fun _ => 0) (fun _ _ => 1) 0 (by decide)⟩

/-! ### Claim C2: the bundle-utility maximizer -/

/-- C2 is false on the code: the claim says student_budget_per_bundle
emits the indicator vector of a maximal-valuation affordable bundle, but
the utility of a combination is never computed (the computation is left
as a TODO at ACEEI.py line 131) and the variable utility_combination is
read without ever being assigned, so the source raises UnboundLocalError
as soon as any combination is affordable.  Concretely, for one agent with
capacity 1, valuation 7, budget row [1] and price vector [0], the claim
demands the vector [1]; the code instead faults (modelled as none). -/
theorem claim_C2_bug :
    student_budget_per_bundle [[1]] [0] instOne = none := by
  norm_num [student_budget_per_bundle, studentsLoop, procStudent, procBudgets,
    procBudget, procCombos, procCombo, combosUpTo, gtUmax, instOne,
    List.sublistsLen, List.sublistsLenAux]

/-! ### Claims C1, C8, C10: the equilibrium loop -/

/-- C1 is false on the code: on the documented example of
find_ACEEI_with_EFTB (docstring lines 177-187: instDoc, budgets (2, 3),
delta 1/2, epsilon 1/2, no EF-TB), the promised loop never performs a
price update and never returns: the very first iteration faults inside
student_budget_per_bundle (and in unembellished Python the iteration
would fault even earlier, since the list of prices is passed where
find_different_budgets expects a dict).  The price vector is initialized
to all zeros as claimed, but the update step is never reached, for any
optimizer implementation. -/
theorem claim_C1_bug (opt : Optimizer) :
    find_ACEEI_with_EFTB opt instDoc budgetsDoc (1 / 2) (1 / 2) EFTBStatus.NO_EF_TB 1 =
      Except.error PyErr.unboundLocal := by
  have hrep : List.replicate 3 (0 : ℚ) = [0, 0, 0] := rfl
  have hr2 : List.range 2 = [0, 1] := rfl
  have hr3 : List.range 3 = [0, 1, 2] := rfl
  have hs1 : List.sublistsLen 1 [(0 : ℚ), 0, 0] = [[0], [0], [0]] := rfl
  have hs2 : List.sublistsLen 2 [(0 : ℚ), 0, 0] = [[0, 0], [0, 0], [0, 0]] := rfl
  have hcu : combosUpTo 2 3 = [[2], [1], [0], [1, 2], [0, 2], [0, 1]] := rfl
  have hg0 : List.getD [(0 : ℚ), 0, 0] 0 0 = 0 := rfl
  norm_num [find_ACEEI_with_EFTB, aceeiLoop, loopBody, find_budget_perturbation,
    find_different_budgets, fdbAux, addSums, buildRow,
    student_budget_per_bundle, studentsLoop, procStudent, procBudgets,
    procBudget, procCombos, procCombo, gtUmax, instDoc, budgetsDoc,
    hrep, hr2, hr3, hs1, hs2, hcu, hg0,
    List.insertionSort, List.orderedInsert]

/-- C10: find_budget_perturbation has no return statement, so it can
never produce the 4-tuple its caller unpacks: its value is either a
propagated fault or Python None (ok none), never ok (some tuple).
Consequently the loop body of find_ACEEI_with_EFTB faults on its first
iteration and the convergence return is unreachable: for every optimizer,
instance, budgets, parameters, mode and fuel, find_ACEEI_with_EFTB never
returns an allocation. -/
theorem claim_C10 (opt : Optimizer) (b0 : ℕ → ℚ) (epsilon delta : ℚ) (prices : List ℚ)
    (inst : Instance) (t : EFTBStatus) :
    (∀ x, find_budget_perturbation opt b0 epsilon delta prices inst t ≠
        Except.ok (some x)) ∧
      ∀ fuel a, find_ACEEI_with_EFTB opt inst b0 delta epsilon t fuel ≠ Except.ok a := by
  have hfbp : ∀ (ps : List ℚ) x,
      find_budget_perturbation opt b0 epsilon delta ps inst t ≠ Except.ok (some x) := by
    intro ps x
    unfold find_budget_perturbation
    cases h : student_budget_per_bundle
        (find_different_budgets inst b0 epsilon delta ps) ps inst with
    | none => simp [h]
    | some a => simp [h]
  refine ⟨hfbp prices, ?_⟩
  intro fuel a
  unfold find_ACEEI_with_EFTB
  cases fuel with
  | zero => simp [aceeiLoop]
  | succ n =>
    rw [aceeiLoop]
    cases h : find_budget_perturbation opt b0 epsilon delta
        (List.replicate inst.numItems 0) inst t with
    | error e => simp [loopBody, h]
    | ok o =>
      cases o with
      | none => simp [loopBody, h]
      | some x => exact absurd h (hfbp _ x)

/-! ### Every affordable combination faults the bundle maximizer -/

theorem procCombo_none_of_affordable (prices : List ℚ) (budget : ℚ) (cap : ℕ)
    (largeNum : ℚ) (st : StState) (combo : List ℕ) (huc : st.uc = none)
    (haff : (combo.map (fun i => prices.getD i 0)).sum ≤ budget) :
    procCombo prices budget cap largeNum st combo = none := by
  unfold procCombo
  split_ifs with h1 h2 <;> simp_all

theorem procCombo_skip_of_unaffordable (prices : List ℚ) (budget : ℚ) (cap : ℕ)
    (largeNum : ℚ) (st : StState) (combo : List ℕ)
    (haff : ¬(combo.map (fun i => prices.getD i 0)).sum ≤ budget) :
    procCombo prices budget cap largeNum st combo = some st := by
  unfold procCombo
  split_ifs with h1 <;> simp_all

theorem procCombos_none (prices : List ℚ) (budget : ℚ) (cap : ℕ) (largeNum : ℚ) :
    ∀ (combos : List (List ℕ)) (st : StState), st.uc = none →
      (∃ c ∈ combos, (c.map (fun i => prices.getD i 0)).sum ≤ budget) →
      procCombos prices budget cap largeNum combos st = none
  | [], st, _, hex => by
    obtain ⟨c, hc, _⟩ := hex
    exact absurd hc (List.not_mem_nil c)
  | c0 :: rest, st, huc, hex => by
    by_cases h0 : (c0.map (fun i => prices.getD i 0)).sum ≤ budget
    · rw [procCombos, procCombo_none_of_affordable prices budget cap largeNum st c0 huc h0]
    · rw [procCombos, procCombo_skip_of_unaffordable prices budget cap largeNum st c0 h0]
      obtain ⟨c, hc, hcs⟩ := hex
      rcases List.mem_cons.mp hc with rfl | hc
      · exact absurd hcs h0
      · exact procCombos_none prices budget cap largeNum rest st huc ⟨c, hc, hcs⟩

theorem procBudget_none (prices : List ℚ) (cap : ℕ) (largeNum : ℚ) (nCourses : ℕ)
    (st : StState) (budget : ℚ) (huc : st.uc = none)
    (hex : ∃ c ∈ st.comboList ++ combosUpTo cap nCourses,
      (c.map (fun i => prices.getD i 0)).sum ≤ budget) :
    procBudget prices cap largeNum nCourses st budget = none := by
  unfold procBudget
  dsimp only
  rw [procCombos_none prices budget cap largeNum (st.comboList ++ combosUpTo cap nCourses)
    { st with comboList := st.comboList ++ combosUpTo cap nCourses } huc hex]

theorem procBudgets_none (prices : List ℚ) (cap : ℕ) (largeNum : ℚ) (nCourses : ℕ)
    (b : ℚ) (rest : List ℚ) (st : StState) (rows : List (List ℕ)) (huc : st.uc = none)
    (hex : ∃ c ∈ st.comboList ++ combosUpTo cap nCourses,
      (c.map (fun i => prices.getD i 0)).sum ≤ b) :
    procBudgets prices cap largeNum nCourses (b :: rest) st rows = none := by
  rw [procBudgets, procBudget_none prices cap largeNum nCourses st b huc hex]

theorem procStudent_none (inst : Instance) (prices : List ℚ) (db : List (List ℚ))
    (s : ℕ) (b : ℚ) (tl : List ℚ) (hdb : db.getD s [] = b :: tl)
    (hex : ∃ c ∈ combosUpTo (inst.agentCapacity s) inst.numItems,
      (c.map (fun i => prices.getD i 0)).sum ≤ b) :
    procStudent inst prices db s = none := by
  unfold procStudent
  rw [hdb]
  exact procBudgets_none prices (inst.agentCapacity s) _ inst.numItems b tl
    ⟨[], none, none, none⟩ [] rfl (by simpa using hex)

theorem studentsLoop_none (inst : Instance) (prices : List ℚ) (db : List (List ℚ)) :
    ∀ (students : List ℕ), (∃ s ∈ students, procStudent inst prices db s = none) →
      studentsLoop inst prices db students = none
  | [], hex => by
    obtain ⟨s, hs, _⟩ := hex
    exact absurd hs (List.not_mem_nil s)
  | s0 :: rest, hex => by
    rw [studentsLoop]
    cases h0 : procStudent inst prices db s0 with
    | none => rfl
    | some rows =>
      obtain ⟨s, hs, hsn⟩ := hex
      rcases List.mem_cons.mp hs with rfl | hs
      · rw [hsn] at h0
        exact absurd h0 (by simp)
      · rw [studentsLoop_none inst prices db rest ⟨s, hs, hsn⟩]

theorem singleton_zero_mem_combosUpTo (cap n : ℕ) (hcap : 1 ≤ cap) (hn : 1 ≤ n) :
    [0] ∈ combosUpTo cap n := by
  unfold combosUpTo
  rw [List.mem_flatMap]
  refine ⟨0, by simpa using hcap, ?_⟩
  rw [List.mem_sublistsLen]
  exact ⟨List.singleton_sublist.mpr (List.mem_range.mpr hn), rfl⟩

theorem getD_replicate_zero : ∀ n i : ℕ, (List.replicate n (0 : ℚ)).getD i 0 = 0
  | 0, _ => rfl
  | _ + 1, 0 => rfl
  | n + 1, i + 1 => getD_replicate_zero n i

theorem buildRow_head :
    ∀ (sums : List ℚ) (minB maxB maxK a : ℚ) (row : List ℚ),
      ∃ tl, buildRow sums minB maxB maxK (a :: row) = a :: tl
  | [], _, _, _, _, row => ⟨row, rfl⟩
  | s :: rest, minB, maxB, maxK, a, row => by
    rw [buildRow]
    split_ifs with hk hin
    · exact ⟨row, rfl⟩
    · rw [List.cons_append]
      exact buildRow_head rest s maxB maxK a (row ++ [s])
    · exact buildRow_head rest minB maxB maxK a row

/-- At the all-zero price vector of the first loop iteration, any agent
whose first candidate budget (initial_budget - epsilon) is nonnegative
has an affordable combination, so student_budget_per_bundle faults. -/
theorem student_budget_per_bundle_none_at_zero_prices (inst : Instance) (b0 : ℕ → ℚ)
    (epsilon delta : ℚ) (s : ℕ) (hs : s < inst.numAgents)
    (hcap : 1 ≤ inst.agentCapacity s) (hitems : 1 ≤ inst.numItems)
    (hbud : 0 ≤ b0 s - epsilon) :
    student_budget_per_bundle
      (find_different_budgets inst b0 epsilon delta (List.replicate inst.numItems 0))
      (List.replicate inst.numItems 0) inst = none := by
  obtain ⟨sums, hrow⟩ := find_different_budgets_row inst b0 epsilon delta
    (List.replicate inst.numItems 0) s hs
  obtain ⟨tl, htl⟩ := buildRow_head sums (b0 s - epsilon) (b0 s + epsilon)
    (2 * epsilon / delta + 1) (b0 s - epsilon) []
  apply studentsLoop_none
  refine ⟨s, List.mem_range.mpr hs, ?_⟩
  refine procStudent_none inst _ _ s (b0 s - epsilon) tl (by rw [hrow, htl]) ?_
  refine ⟨[0], singleton_zero_mem_combosUpTo _ _ hcap hitems, ?_⟩
  simp [getD_replicate_zero, hbud]

/-- The budget enumeration of a real loop iteration faults with the
line-78 AttributeError as soon as some agent has positive capacity. -/
theorem fdbOnListAux_error (b0 : ℕ → ℚ) (epsilon : ℚ) (inst : Instance) :
    ∀ (students : List ℕ), (∃ s ∈ students, 1 ≤ inst.agentCapacity s) →
      fdbOnListAux b0 epsilon inst students = .error .attributeError
  | [], hex => by
    obtain ⟨s, hs, _⟩ := hex
    exact absurd hs (List.not_mem_nil s)
  | s0 :: rest, hex => by
    rw [fdbOnListAux]
    by_cases h0 : 1 ≤ inst.agentCapacity s0
    · rw [if_pos h0]
    · rw [if_neg h0]
      obtain ⟨s, hs, hcap⟩ := hex
      rcases List.mem_cons.mp hs with rfl | hs
      · exact absurd hcap h0
      · rw [fdbOnListAux_error b0 epsilon inst rest ⟨s, hs, hcap⟩]

/-- C8 is false on the code: there is no validation of delta or epsilon
anywhere in find_ACEEI_with_EFTB.  At the concrete invalid input
delta = -1 (one agent of capacity 1, one item, budget 1, epsilon 0) the
call is not rejected before budget enumeration: it enters the loop and
fails with the AttributeError raised at line 78 inside
find_different_budgets — an error this development produces nowhere but
in the budget enumerator — and the corresponding valid-parameter call
with delta = 1 fails in exactly the same way, so no rejection tied to
the parameters exists. -/
theorem claim_C8_counterexample :
    find_ACEEI_with_EFTB_onList trivialOptimizer instTiny (fun _ => 1) (-1) 0
        EFTBStatus.NO_EF_TB 1 = Except.error PyErr.attributeError ∧
      find_ACEEI_with_EFTB_onList trivialOptimizer instTiny (fun _ => 1) 1 0
        EFTBStatus.NO_EF_TB 1 = Except.error PyErr.attributeError := by
  have hr1 : List.range 1 = [0] := rfl
  constructor <;>
    norm_num [find_ACEEI_with_EFTB_onList, aceeiLoopOnList,
      find_budget_perturbation_onList, find_different_budgets_onList,
      fdbOnListAux, instTiny, hr1]

/-- C8 amended: calls to find_ACEEI_with_EFTB with delta at most 0 or
epsilon below 0 are not rejected: no parameter validation exists, and
the call enters the equilibrium loop and budget enumeration, where it
fails inside find_different_budgets — with the ZeroDivisionError of
line 66 if delta is zero, and otherwise (on any instance with an agent
of positive capacity, as the parameter contract guarantees) with the
AttributeError of line 78, the same failure a valid-parameter call
produces — never with a parameter rejection. -/
theorem claim_C8_amended (opt : Optimizer) (inst : Instance) (b0 : ℕ → ℚ)
    (delta epsilon : ℚ) (t : EFTBStatus) (fuel s : ℕ)
    (hinvalid : delta ≤ 0 ∨ epsilon < 0) (hfuel : 1 ≤ fuel)
    (hs : s < inst.numAgents) (hcap : 1 ≤ inst.agentCapacity s) :
    find_ACEEI_with_EFTB_onList opt inst b0 delta epsilon t fuel =
      Except.error
        (if delta = 0 then PyErr.zeroDivisionError else PyErr.attributeError) := by
  obtain ⟨n, rfl⟩ : ∃ n, fuel = n + 1 := ⟨fuel - 1, by omega⟩
  unfold find_ACEEI_with_EFTB_onList
  rw [aceeiLoopOnList]
  unfold find_budget_perturbation_onList find_different_budgets_onList
  by_cases hd : delta = 0
  · rw [if_pos hd, if_pos hd]
  · rw [if_neg hd, if_neg hd,
      fdbOnListAux_error b0 epsilon inst (List.range inst.numAgents)
        ⟨s, List.mem_range.mpr hs, hcap⟩]

/-- Witness for the amended C8 at a concrete input on the other invalid
branch: epsilon = -1 (delta = 1), one agent with budget 1. -/
theorem claim_C8_amended_witness :
    ((1 : ℚ) ≤ 0 ∨ (-1 : ℚ) < 0) ∧ 1 ≤ 1 ∧ 0 < instTiny.numAgents ∧
      1 ≤ instTiny.agentCapacity 0 ∧
      find_ACEEI_with_EFTB_onList trivialOptimizer instTiny (fun _ => 1) 1 (-1)
          EFTBStatus.EF_TB 1 =
        Except.error
          (if (1 : ℚ) = 0 then PyErr.zeroDivisionError else PyErr.attributeError) :=
  ⟨Or.inr (by norm_num), le_refl 1, by decide, by decide,
    claim_C8_amended trivialOptimizer instTiny (fun _ => 1) 1 (-1) EFTBStatus.EF_TB 1 0
      (Or.inr (by norm_num)) (le_refl 1) (by decide) (by decide)⟩

/-! ### Claim C9: determinism of the equilibrium loop -/

/-- The outcome relation of one body execution of the source while-loop
at a given price vector: either find_budget_perturbation propagates a
fault, or its Python-None value faults the 4-tuple unpacking, or (were a
tuple ever produced) a zero norm returns the allocation and a nonzero
norm reaches the faulting price-update expression. -/
inductive AceeiRun (opt : Optimizer) (inst : Instance) (b0 : ℕ → ℚ)
    (delta epsilon : ℚ) (t : EFTBStatus) :
    List ℚ → Except PyErr (List (List ℕ)) → Prop
  | bodyErr {prices : List ℚ} {e : PyErr}
      (h : find_budget_perturbation opt b0 epsilon delta prices inst t = .error e) :
      AceeiRun opt inst b0 delta epsilon t prices (.error e)
  | unpackNone {prices : List ℚ}
      (h : find_budget_perturbation opt b0 epsilon delta prices inst t = .ok none) :
      AceeiRun opt inst b0 delta epsilon t prices (.error .typeError)
  | converged {prices : List ℚ} {nb : ℕ → ℚ} {alloc : List (List ℕ)} {ex : List ℚ}
      (h : find_budget_perturbation opt b0 epsilon delta prices inst t =
        .ok (some (nb, 0, alloc, ex))) :
      AceeiRun opt inst b0 delta epsilon t prices (.ok alloc)
  | updateFail {prices : List ℚ} {nb : ℕ → ℚ} {norma : ℚ} {alloc : List (List ℕ)}
      {ex : List ℚ}
      (h : find_budget_perturbation opt b0 epsilon delta prices inst t =
        .ok (some (nb, norma, alloc, ex)))
      (hn : norma ≠ 0) :
      AceeiRun opt inst b0 delta epsilon t prices (.error .typeError)

/-- Every derivable loop-body outcome coincides with the value of the
loopBody function, which is a pure function of its arguments. -/
theorem aceeiRun_eq_loopBody (opt : Optimizer) (inst : Instance) (b0 : ℕ → ℚ)
    (delta epsilon : ℚ) (t : EFTBStatus) (prices : List ℚ)
    (o : Except PyErr (List (List ℕ)))
    (h : AceeiRun opt inst b0 delta epsilon t prices o) :
    o = loopBody opt inst b0 delta epsilon t prices := by
  cases h with
  | bodyErr h => unfold loopBody; rw [h]
  | unpackNone h => unfold loopBody; rw [h]
  | converged h => unfold loopBody; rw [h]; simp
  | updateFail h hn => unfold loopBody; rw [h]; simp [hn]

/-- C9: the equilibrium loop is deterministic.  For a fixed optimizer,
instance, initial budgets, delta, epsilon and EF-TB mode, two executions
of the loop body from the same price vector produce the same outcome:
every quantity is a function of those inputs and the core contains no
source of randomness. -/
theorem claim_C9 (opt : Optimizer) (inst : Instance) (b0 : ℕ → ℚ)
    (delta epsilon : ℚ) (t : EFTBStatus) (prices : List ℚ)
    (o1 o2 : Except PyErr (List (List ℕ)))
    (h1 : AceeiRun opt inst b0 delta epsilon t prices o1)
    (h2 : AceeiRun opt inst b0 delta epsilon t prices o2) : o1 = o2 := by
  rw [aceeiRun_eq_loopBody opt inst b0 delta epsilon t prices o1 h1,
    aceeiRun_eq_loopBody opt inst b0 delta epsilon t prices o2 h2]

/-- Witness for C9: two derivations of the loop-body outcome at a
concrete input (one agent, budget 1, epsilon 0, delta 1, zero prices)
yield the same outcome. -/
theorem claim_C9_witness :
    (Except.error PyErr.unboundLocal : Except PyErr (List (List ℕ))) =
      Except.error PyErr.unboundLocal := by
  have hf : find_budget_perturbation trivialOptimizer (fun _ => 1) 0 1
      (List.replicate instTiny.numItems 0) instTiny EFTBStatus.NO_EF_TB =
        .error .unboundLocal := by
    unfold find_budget_perturbation
    dsimp only
    rw [student_budget_per_bundle_none_at_zero_prices instTiny (fun _ => 1) 0 1 0
      (by decide) (by decide) (by decide) (by norm_num)]
  exact claim_C9 trivialOptimizer instTiny (fun _ => 1) 1 0 EFTBStatus.NO_EF_TB
    (List.replicate instTiny.numItems 0) _ _
    (AceeiRun.bodyErr hf) (AceeiRun.bodyErr hf)
